import Mathlib

/-
Verification of monitor/ConfigurationStore.go (package monitor of the agento
repository) against its natural-language specification.

The embedding is shallow: the Go data is translated to Lean structures, Go map
values become association lists (one admissible iteration order of the
unordered Go map), the global bson ObjectId generator becomes a counter
threaded through the store, and the Broadcaster collaborator becomes an
ordered event log appended to by Broadcast. Functions that can panic in Go
(bson.ObjectIdHex panics on a malformed hex string, and the loader panics on
a failed transport or agent decode) return a GoOutcome, whose panics
constructor marks a Go runtime panic as opposed to a returned error.
-/

set_option autoImplicit false

namespace Agento

/-- A bson ObjectId is a 12 byte value; we model it by its numeric value.
Two ObjectId values are equal exactly when their byte strings are equal,
which the numeric model preserves. -/
abbrev ObjectId := Nat

/-- The reserved all-zero identifier, bson.ObjectIdHex of the string of 24
zero characters, hardcoded in NewConfigurationStore for the localhost host. -/
def zeroId : ObjectId := 0

/-- Models bson.NewObjectId of the external mgo library: every call yields a
fresh identifier that is never the reserved zero identifier. The library
builds ids from a timestamp, machine id, pid and an increasing counter; we
model that collision-free supply by a deterministic injective function of a
generation counter threaded through the store. -/
def genId (n : Nat) : ObjectId := n + 1

/-- Numeric value of one hexadecimal digit, accepting both letter cases just
as hex.DecodeString does in Go. -/
def hexDigitVal (c : Char) : Option Nat :=
  if '0' ≤ c ∧ c ≤ '9' then some (c.toNat - '0'.toNat)
  else if 'a' ≤ c ∧ c ≤ 'f' then some (c.toNat - 'a'.toNat + 10)
  else if 'A' ≤ c ∧ c ≤ 'F' then some (c.toNat - 'A'.toNat + 10)
  else none

/-- Models bson.ObjectIdHex up to its panic: the Go function panics unless
the argument is a valid hex string of exactly 24 characters (12 bytes). We
return none where the Go function panics, and the callers in this file map
none to a panic outcome. -/
def ObjectIdHex (s : String) : Option ObjectId :=
  if s.length = 24 then
    s.data.foldl (fun acc c => acc.bind fun a => (hexDigitVal c).map fun d => a * 16 + d)
      (some 0)
  else none

/-- Modelled from the spec: the Host entity (its Go struct is declared in the
monitor package outside ConfigurationStore.go): Id, Name, TransportId (the
plugin selector string) and the resolved Transport instance. The constructed
transport carries no state observed by any claim, so it is represented by
the registry key it was constructed from. -/
structure Host where
  Id : ObjectId
  Name : String
  TransportId : String
  Transport : String
  deriving DecidableEq, Repr

/-- Modelled from the spec: the Job component of a Monitor, holding the
resolved Agent instance, represented by its registry key. -/
structure Job where
  Agent : String
  deriving DecidableEq, Repr

/-- One nanosecond as a Go time.Duration value; time.Duration is an int64
count of nanoseconds and time.Second is 1000000000. -/
def second : Int := 1000000000

/-- Modelled from the spec: the Monitor entity (its Go struct is declared in
the monitor package outside ConfigurationStore.go): Id, HostId (foreign key
into the hosts collection), Interval (a duration) and the Job holding the
agent. -/
structure Monitor where
  Id : ObjectId
  HostId : ObjectId
  Interval : Int
  Job : Job
  deriving DecidableEq, Repr

/-- Modelled from the spec: the named events pushed to the Broadcaster, each
carrying the affected entity. -/
inductive Event where
  | hostadd (h : Host)
  | hostdelete (h : Host)
  | monadd (m : Monitor)
  | monchange (m : Monitor)
  | mondelete (m : Monitor)
  deriving DecidableEq, Repr

/-- The errors produced by ConfigurationStore.go. The first three model the
named sentinel values (ErrHostNotFound and ErrMonitorNotFound from this file,
ErrorInvalidId from the monitor package); the fmt constructors model the
distinct ad hoc error values built with fmt.Errorf at the call sites, which
compare unequal to every sentinel. -/
inductive GoErr where
  | errHostNotFound
  | errMonitorNotFound
  | errorInvalidId
  | decodeErr
  | fmtUnknownTransport (t : String)
  | fmtUnknownAgent (a : String)
  | fmtHostNotFound (name : String)
  deriving DecidableEq, Repr

/-- Outcome of running a piece of Go code: a returned value, or a runtime
panic. -/
inductive GoOutcome (α : Type) where
  | ok (a : α)
  | panics
  deriving DecidableEq, Repr

instance {ε α : Type} [DecidableEq ε] [DecidableEq α] : DecidableEq (Except ε α) :=
  fun x y =>
    match x, y with
    | .error a, .error b =>
      if h : a = b then .isTrue (congrArg _ h)
      else .isFalse fun hh => h (Except.error.inj hh)
    | .ok a, .ok b =>
      if h : a = b then .isTrue (congrArg _ h)
      else .isFalse fun hh => h (Except.ok.inj hh)
    | .error _, .ok _ => .isFalse fun hh => Except.noConfusion hh
    | .ok _, .error _ => .isFalse fun hh => Except.noConfusion hh

/-- The ConfigurationStore: the two keyed collections, the event log of the
Broadcaster collaborator, and the state of the identifier generator. -/
structure ConfigurationStore where
  hosts : List (ObjectId × Host)
  monitors : List (ObjectId × Monitor)
  events : List Event
  gen : Nat
  deriving DecidableEq, Repr

/-- Go map read m[k]: first entry with the key, if any. -/
def GoMap.find {α : Type} (k : ObjectId) : List (ObjectId × α) → Option α
  | [] => none
  | p :: rest => if p.1 = k then some p.2 else GoMap.find k rest

/-- Go builtin delete(m, k): removes the entry with key k. -/
def GoMap.erase {α : Type} (k : ObjectId) : List (ObjectId × α) → List (ObjectId × α)
  | [] => []
  | p :: rest => if p.1 = k then GoMap.erase k rest else p :: GoMap.erase k rest

/-- Go map assignment m[k] = v: extensionally, key k now maps to v and every
other key is unchanged. The entry order only stands in for the unspecified
Go map iteration order. -/
def GoMap.insert {α : Type} (k : ObjectId) (v : α) (l : List (ObjectId × α)) :
    List (ObjectId × α) :=
  GoMap.erase k l ++ [(k, v)]

theorem GoMap.find_eq_none {α : Type} {k : ObjectId} {l : List (ObjectId × α)} :
    GoMap.find k l = none ↔ ∀ p ∈ l, p.1 ≠ k := by
  induction l with
  | nil => simp [GoMap.find]
  | cons p rest ih =>
    by_cases h : p.1 = k <;> simp [GoMap.find, h, ih]

theorem GoMap.find_mem {α : Type} {k : ObjectId} {v : α} {l : List (ObjectId × α)}
    (h : GoMap.find k l = some v) : (k, v) ∈ l := by
  induction l with
  | nil => simp [GoMap.find] at h
  | cons p rest ih =>
    by_cases hp : p.1 = k
    · simp [GoMap.find, hp] at h
      subst h
      have hpk : p = (k, p.2) := by
        rw [Prod.ext_iff]
        exact ⟨hp, rfl⟩
      rw [← hpk]
      exact List.mem_cons_self _ _
    · simp [GoMap.find, hp] at h
      exact List.mem_cons_of_mem _ (ih h)

theorem GoMap.mem_erase {α : Type} {k : ObjectId} {p : ObjectId × α}
    {l : List (ObjectId × α)} (h : p ∈ GoMap.erase k l) : p ∈ l := by
  induction l with
  | nil => simp [GoMap.erase] at h
  | cons q rest ih =>
    by_cases hq : q.1 = k
    · simp [GoMap.erase, hq] at h
      exact List.mem_cons_of_mem _ (ih h)
    · simp [GoMap.erase, hq] at h
      rcases h with h | h
      · exact h ▸ List.mem_cons_self _ _
      · exact List.mem_cons_of_mem _ (ih h)

theorem GoMap.find_erase_self {α : Type} {k : ObjectId} {l : List (ObjectId × α)} :
    GoMap.find k (GoMap.erase k l) = none := by
  induction l with
  | nil => simp [GoMap.erase, GoMap.find]
  | cons p rest ih =>
    by_cases hp : p.1 = k <;> simp [GoMap.erase, GoMap.find, hp, ih]

theorem GoMap.find_erase_ne {α : Type} {k k' : ObjectId} {l : List (ObjectId × α)}
    (h : k' ≠ k) : GoMap.find k' (GoMap.erase k l) = GoMap.find k' l := by
  induction l with
  | nil => simp [GoMap.erase]
  | cons p rest ih =>
    have hk : k ≠ k' := fun hh => h hh.symm
    by_cases hp : p.1 = k
    · have : p.1 ≠ k' := by rw [hp]; exact hk
      simp [GoMap.erase, GoMap.find, hp, this, ih, hk]
    · by_cases hp' : p.1 = k' <;>
        simp [GoMap.erase, GoMap.find, hp, hp', ih, hk, h]

theorem GoMap.find_append {α : Type} {k : ObjectId} {l l' : List (ObjectId × α)} :
    GoMap.find k (l ++ l') =
      match GoMap.find k l with
      | some v => some v
      | none => GoMap.find k l' := by
  induction l with
  | nil => simp [GoMap.find]
  | cons p rest ih =>
    by_cases hp : p.1 = k <;> simp [GoMap.find, hp, ih]

theorem GoMap.find_insert_self {α : Type} {k : ObjectId} {v : α}
    {l : List (ObjectId × α)} : GoMap.find k (GoMap.insert k v l) = some v := by
  rw [GoMap.insert, GoMap.find_append, GoMap.find_erase_self]
  simp [GoMap.find]

theorem GoMap.find_insert_ne {α : Type} {k k' : ObjectId} {v : α}
    {l : List (ObjectId × α)} (h : k' ≠ k) :
    GoMap.find k' (GoMap.insert k v l) = GoMap.find k' l := by
  rw [GoMap.insert, GoMap.find_append]
  rw [GoMap.find_erase_ne h]
  cases hf : GoMap.find k' l with
  | some v' => rfl
  | none =>
    have hk : k ≠ k' := fun hh => h hh.symm
    simp [GoMap.find, hk]

theorem GoMap.mem_insert {α : Type} {k : ObjectId} {v : α} {p : ObjectId × α}
    {l : List (ObjectId × α)} (h : p ∈ GoMap.insert k v l) :
    p = (k, v) ∨ p ∈ l := by
  rw [GoMap.insert] at h
  rcases List.mem_append.mp h with h | h
  · exact Or.inr (GoMap.mem_erase h)
  · simp at h
    exact Or.inl h

theorem GoMap.erase_of_fresh {α : Type} {k : ObjectId} {l : List (ObjectId × α)}
    (h : ∀ p ∈ l, p.1 ≠ k) : GoMap.erase k l = l := by
  induction l with
  | nil => simp [GoMap.erase]
  | cons p rest ih =>
    have hp : p.1 ≠ k := h p (List.mem_cons_self _ _)
    simp [GoMap.erase, hp]
    exact ih fun q hq => h q (List.mem_cons_of_mem _ hq)

theorem GoMap.insert_of_fresh {α : Type} {k : ObjectId} {v : α}
    {l : List (ObjectId × α)} (h : ∀ p ∈ l, p.1 ≠ k) :
    GoMap.insert k v l = l ++ [(k, v)] := by
  rw [GoMap.insert, GoMap.erase_of_fresh h]

/-- One raw host primitive from the configuration, as consumed by the host
loop of NewConfigurationStore. decoded = some t means meta.PrimitiveDecode
into the base Host structure succeeds and leaves TransportId t in it (the Id
and Name fields the decode may have set are overwritten by the loop);
decoded = none means that decode returns an error. transportDecodeOk tells
whether the second decode of the same primitive into the freshly constructed
transport instance succeeds; the loop panics when it does not. -/
structure RawHost where
  decoded : Option String
  transportDecodeOk : Bool
  deriving DecidableEq, Repr

/-- One raw monitor primitive from the configuration. proxy = some (h, a)
means meta.PrimitiveDecode into the proxy structure succeeds and yields host
name h and agent selector a; none means that decode errors. interval records
the interval field the raw record may carry, in nanoseconds: the monitor
loop of ConfigurationStore.go reads only the proxy fields and the agent
fields from the record, so this field is never consulted by the code below.
agentDecodeOk tells whether the decode into the constructed agent instance
succeeds; the loop panics when it does not. -/
structure RawMonitor where
  proxy : Option (String × String)
  interval : Option Int
  agentDecodeOk : Bool
  deriving DecidableEq, Repr

/-- The configuration snapshot: config.GetAllHosts yields the host primitives
keyed by host name (a TOML table, so names are distinct), config.GetAllMonitors
yields the monitor primitives. -/
structure Configuration where
  hosts : List (String × RawHost)
  monitors : List RawMonitor
  deriving DecidableEq, Repr

/-- Broadcaster.Broadcast: appends the named event to the subscriber-visible
event log. -/
def Broadcast (s : ConfigurationStore) (e : Event) : ConfigurationStore :=
  { s with events := s.events ++ [e] }

/-- GetHostByName: iterates the hosts map and returns the first host whose
Name matches; otherwise it returns the ad hoc error built by fmt.Errorf,
which is not the ErrHostNotFound sentinel. -/
def GetHostByName (s : ConfigurationStore) (name : String) : Except GoErr Host :=
  match s.hosts.find? (fun p => p.2.Name == name) with
  | some p => .ok p.2
  | none => .error (.fmtHostNotFound name)

/-- The host loop of NewConfigurationStore (lines 47 to 81): per record,
decode the base Host, overwrite Name with the map key, assign the reserved
zero id when the name is localhost and a fresh id otherwise, look the
transport selector up in the registry (error if absent), construct and
decode the transport (panic if that decode fails), and insert the host into
the map keyed by its id. The transport registry is the list of registered
plugin keys. -/
def loadHosts (transports : List String) :
    List (String × RawHost) → ConfigurationStore →
      GoOutcome (Except GoErr ConfigurationStore)
  | [], s => .ok (.ok s)
  | (name, raw) :: rest, s =>
    match raw.decoded with
    | none => .ok (.error .decodeErr)
    | some tid =>
      let id : ObjectId := if name = "localhost" then zeroId else genId s.gen
      let gen' : Nat := if name = "localhost" then s.gen else s.gen + 1
      if tid ∈ transports then
        if raw.transportDecodeOk then
          loadHosts transports rest
            { s with
              hosts := GoMap.insert id
                { Id := id, Name := name, TransportId := tid, Transport := tid }
                s.hosts,
              gen := gen' }
        else .panics
      else .ok (.error (.fmtUnknownTransport tid))

/-- The monitor loop of NewConfigurationStore (lines 86 to 123): per record,
initialize the Monitor with the 10 second interval, decode the proxy (error
if that fails), resolve the host by name through GetHostByName (propagating
its error), set HostId and a fresh Id, look the agent selector up in the
registry (error if absent), construct and decode the agent (panic if that
decode fails), and insert the monitor keyed by its id. The raw record is
never decoded into the Monitor structure itself, so the interval field of
the record is never read here. -/
def loadMonitors (agents : List String) :
    List RawMonitor → ConfigurationStore → GoOutcome (Except GoErr ConfigurationStore)
  | [], s => .ok (.ok s)
  | raw :: rest, s =>
    match raw.proxy with
    | none => .ok (.error .decodeErr)
    | some pr =>
      match GetHostByName s pr.1 with
      | .error e => .ok (.error e)
      | .ok host =>
        if pr.2 ∈ agents then
          if raw.agentDecodeOk then
            loadMonitors agents rest
              { s with
                monitors := GoMap.insert (genId s.gen)
                  { Id := genId s.gen, HostId := host.Id,
                    Interval := 10 * second, Job := { Agent := pr.2 } }
                  s.monitors,
                gen := s.gen + 1 }
          else .panics
        else .ok (.error (.fmtUnknownAgent pr.2))

/-- NewConfigurationStore: start from an empty store holding the injected
Broadcaster (an empty event log) and the generator state, load all hosts,
then all monitors. Any error aborts the whole load with no store value. -/
def NewConfigurationStore (transports agents : List String)
    (config : Configuration) (gen0 : Nat) :
    GoOutcome (Except GoErr ConfigurationStore) :=
  let s : ConfigurationStore := { hosts := [], monitors := [], events := [], gen := gen0 }
  match loadHosts transports config.hosts s with
  | .panics => .panics
  | .ok (.error e) => .ok (.error e)
  | .ok (.ok s1) => loadMonitors agents config.monitors s1

/-- AddHost: overwrite the Id of the caller-supplied host with a fresh one,
store the host under that id, broadcast one hostadd event carrying the
updated host, return nil error. The second component is the value the caller
sees afterwards through the pointer it passed in. -/
def AddHost (s : ConfigurationStore) (host : Host) : ConfigurationStore × Host :=
  let h := { host with Id := genId s.gen }
  let s' := { s with hosts := GoMap.insert h.Id h s.hosts, gen := s.gen + 1 }
  (Broadcast s' (.hostadd h), h)

/-- GetHost: bson.ObjectIdHex panics on a malformed id; on a well-formed id
the host is looked up and ErrorInvalidId is returned when the key is absent. -/
def GetHost (s : ConfigurationStore) (id : String) : GoOutcome (Except GoErr Host) :=
  match ObjectIdHex id with
  | none => .panics
  | some oid =>
    match GoMap.find oid s.hosts with
    | some host => .ok (.ok host)
    | none => .ok (.error .errorInvalidId)

/-- DeleteHost: bson.ObjectIdHex panics on a malformed id; an absent key
returns the ErrHostNotFound sentinel with no state change and no event; a
present key removes the entry and broadcasts one hostdelete event carrying
the removed host. The result pairs the post state with the returned error. -/
def DeleteHost (s : ConfigurationStore) (id : String) :
    GoOutcome (ConfigurationStore × Option GoErr) :=
  match ObjectIdHex id with
  | none => .panics
  | some oid =>
    match GoMap.find oid s.hosts with
    | none => .ok (s, some .errHostNotFound)
    | some host =>
      let s' := { s with hosts := GoMap.erase oid s.hosts }
      .ok (Broadcast s' (.hostdelete host), none)

/-- AddMonitor: same shape as AddHost, on the monitors collection, with one
monadd event. -/
def AddMonitor (s : ConfigurationStore) (mon : Monitor) : ConfigurationStore × Monitor :=
  let m := { mon with Id := genId s.gen }
  let s' := { s with monitors := GoMap.insert m.Id m s.monitors, gen := s.gen + 1 }
  (Broadcast s' (.monadd m), m)

/-- UpdateMonitor: unconditionally store the monitor under its own Id (an
upsert), broadcast one monchange event, return nil error (the second
component). -/
def UpdateMonitor (s : ConfigurationStore) (mon : Monitor) :
    ConfigurationStore × Option GoErr :=
  let s' := { s with monitors := GoMap.insert mon.Id mon s.monitors }
  (Broadcast s' (.monchange mon), none)

/-- DeleteMonitor: same shape as DeleteHost, on the monitors collection, with
the ErrMonitorNotFound sentinel and one mondelete event. -/
def DeleteMonitor (s : ConfigurationStore) (id : String) :
    GoOutcome (ConfigurationStore × Option GoErr) :=
  match ObjectIdHex id with
  | none => .panics
  | some oid =>
    match GoMap.find oid s.monitors with
    | none => .ok (s, some .errMonitorNotFound)
    | some mon =>
      let s' := { s with monitors := GoMap.erase oid s.monitors }
      .ok (Broadcast s' (.mondelete mon), none)

theorem loadHosts_frame (t : List String) (l : List (String × RawHost)) :
    ∀ s s' : ConfigurationStore, loadHosts t l s = .ok (.ok s') →
      s'.monitors = s.monitors ∧ s'.events = s.events := by
  induction l with
  | nil =>
    intro s s' h
    simp only [loadHosts] at h
    injection h with h1
    injection h1 with h2
    subst h2
    exact ⟨rfl, rfl⟩
  | cons hd rest ih =>
    intro s s' h
    obtain ⟨name, raw⟩ := hd
    simp only [loadHosts] at h
    cases hdec : raw.decoded with
    | none => rw [hdec] at h; simp at h
    | some tid =>
      rw [hdec] at h
      by_cases hmem : tid ∈ t
      · cases htd : raw.transportDecodeOk with
        | false => simp [hmem, htd] at h
        | true =>
          simp only [hmem, htd, if_true, if_pos] at h
          have hx := ih _ _ h
          exact hx
      · simp [hmem] at h

theorem loadHosts_host_mem (t : List String) (l : List (String × RawHost)) :
    ∀ s s' : ConfigurationStore, loadHosts t l s = .ok (.ok s') →
      ∀ p ∈ s'.hosts, p ∈ s.hosts ∨ p.2.Id = p.1 := by
  induction l with
  | nil =>
    intro s s' h
    simp only [loadHosts] at h
    injection h with h1
    injection h1 with h2
    subst h2
    exact fun p hp => Or.inl hp
  | cons hd rest ih =>
    intro s s' h
    obtain ⟨name, raw⟩ := hd
    simp only [loadHosts] at h
    cases hdec : raw.decoded with
    | none => rw [hdec] at h; simp at h
    | some tid =>
      rw [hdec] at h
      by_cases hmem : tid ∈ t
      · cases htd : raw.transportDecodeOk with
        | false => simp [hmem, htd] at h
        | true =>
          simp only [hmem, htd, if_true, if_pos] at h
          intro p hp
          rcases ih _ _ h p hp with hold | hid
          · rcases GoMap.mem_insert hold with he | hold2
            · right
              rw [he]
            · exact Or.inl hold2
          · exact Or.inr hid
      · simp [hmem] at h

theorem loadMonitors_frame (a : List String) (l : List RawMonitor) :
    ∀ s s' : ConfigurationStore, loadMonitors a l s = .ok (.ok s') →
      s'.hosts = s.hosts ∧ s'.events = s.events := by
  induction l with
  | nil =>
    intro s s' h
    simp only [loadMonitors] at h
    injection h with h1
    injection h1 with h2
    subst h2
    exact ⟨rfl, rfl⟩
  | cons raw rest ih =>
    intro s s' h
    simp only [loadMonitors] at h
    split at h
    · simp at h
    · split at h
      · simp at h
      · split at h
        · split at h
          · have hx := ih _ _ h
            exact hx
          · simp at h
        · simp at h

theorem loadMonitors_monitor_mem (a : List String) (l : List RawMonitor) :
    ∀ s s' : ConfigurationStore, loadMonitors a l s = .ok (.ok s') →
      ∀ p ∈ s'.monitors,
        p ∈ s.monitors ∨ (p.2.Id = p.1 ∧ p.2.Interval = 10 * second) := by
  induction l with
  | nil =>
    intro s s' h
    simp only [loadMonitors] at h
    injection h with h1
    injection h1 with h2
    subst h2
    exact fun p hp => Or.inl hp
  | cons raw rest ih =>
    intro s s' h
    simp only [loadMonitors] at h
    split at h
    · simp at h
    · split at h
      · simp at h
      · split at h
        · split at h
          · intro p hp
            rcases ih _ _ h p hp with hold | hid
            · rcases GoMap.mem_insert hold with he | hold2
              · right
                rw [he]
                exact ⟨rfl, rfl⟩
              · exact Or.inl hold2
            · exact Or.inr hid
          · simp at h
        · simp at h

theorem loadHosts_registered (t : List String) (l : List (String × RawHost)) :
    ∀ s s' : ConfigurationStore, loadHosts t l s = .ok (.ok s') →
      ∀ p ∈ l, ∀ tid, p.2.decoded = some tid → tid ∈ t := by
  induction l with
  | nil =>
    intro s s' _ p hp
    simp at hp
  | cons hd rest ih =>
    intro s s' h
    obtain ⟨name, raw⟩ := hd
    simp only [loadHosts] at h
    split at h
    · simp at h
    · next tid heq =>
      split at h
      · next hmem =>
        split at h
        · intro p hp tid' hd'
          rcases List.mem_cons.mp hp with he | hrest
          · rw [he] at hd'
            simp only at hd'
            rw [heq] at hd'
            injection hd' with he2
            rw [← he2]
            exact hmem
          · exact ih _ _ h p hrest tid' hd'
        · simp at h
      · simp at h

theorem loadHosts_unknown_transport (t : List String) (l : List (String × RawHost)) :
    ∀ s : ConfigurationStore,
      (∀ p ∈ l, (p.2.decoded).isSome ∧ p.2.transportDecodeOk = true) →
      (∃ p ∈ l, ∃ tid, p.2.decoded = some tid ∧ tid ∉ t) →
      ∃ tid, tid ∉ t ∧
        loadHosts t l s = .ok (.error (.fmtUnknownTransport tid)) := by
  induction l with
  | nil =>
    intro s _ hbad
    simp at hbad
  | cons hd rest ih =>
    intro s hok hbad
    obtain ⟨name, raw⟩ := hd
    obtain ⟨hdok, htd⟩ := hok _ (List.mem_cons_self _ _)
    obtain ⟨tid, heq⟩ := Option.isSome_iff_exists.mp hdok
    simp only at heq htd
    by_cases hmem : tid ∈ t
    · have hbad' : ∃ p ∈ rest, ∃ tid2, p.2.decoded = some tid2 ∧ tid2 ∉ t := by
        rcases hbad with ⟨p, hp, tid', hd', hnt⟩
        rcases List.mem_cons.mp hp with he | hrest
        · rw [he] at hd'
          simp only at hd'
          rw [heq] at hd'
          injection hd' with he2
          exact absurd (he2 ▸ hmem) hnt
        · exact ⟨p, hrest, tid', hd', hnt⟩
      simp only [loadHosts, heq, hmem, htd, if_true]
      exact ih _ (fun p hp => hok p (List.mem_cons_of_mem _ hp)) hbad'
    · refine ⟨tid, hmem, ?_⟩
      simp only [loadHosts, heq]
      simp [hmem]

theorem map_id_eq_key (l : List (ObjectId × Host)) (h : ∀ p ∈ l, p.2.Id = p.1) :
    (l.map fun p => p.2.Id) = l.map Prod.fst := by
  induction l with
  | nil => rfl
  | cons p rest ih =>
    simp only [List.map_cons]
    rw [h p (List.mem_cons_self _ _), ih fun q hq => h q (List.mem_cons_of_mem _ hq)]

theorem loadHosts_ok_spec (t : List String) (l : List (String × RawHost)) :
    ∀ s s' : ConfigurationStore, loadHosts t l s = .ok (.ok s') →
      (l.map Prod.fst).Nodup →
      (∀ p ∈ s.hosts, p.2.Name ∉ l.map Prod.fst) →
      (∀ p ∈ s.hosts,
        p.2.Id = p.1 ∧
        (p.2.Name = "localhost" → p.1 = zeroId) ∧
        (p.2.Name ≠ "localhost" → ∃ k, k < s.gen ∧ p.1 = genId k)) →
      (s.hosts.map Prod.fst).Nodup →
      ((∀ p ∈ s'.hosts,
          p.2.Id = p.1 ∧
          (p.2.Name = "localhost" → p.1 = zeroId) ∧
          (p.2.Name ≠ "localhost" → ∃ k, k < s'.gen ∧ p.1 = genId k)) ∧
        (s'.hosts.map Prod.fst).Nodup ∧
        s'.hosts.length = s.hosts.length + l.length ∧
        s.gen ≤ s'.gen) := by
  induction l with
  | nil =>
    intro s s' h _ _ h3 h4
    simp only [loadHosts] at h
    injection h with h5
    injection h5 with h6
    subst h6
    exact ⟨h3, h4, by simp, Nat.le_refl _⟩
  | cons hd rest ih =>
    intro s s' h h1 h2 h3 h4
    obtain ⟨name, raw⟩ := hd
    simp only [List.map_cons] at h1 h2
    have hname_rest : name ∉ rest.map Prod.fst := (List.nodup_cons.mp h1).1
    have hrest_nodup : (rest.map Prod.fst).Nodup := (List.nodup_cons.mp h1).2
    simp only [loadHosts] at h
    split at h
    · simp at h
    · next tid heq =>
      split at h
      · next hmem =>
        split at h
        · next htd =>
          by_cases hname : name = "localhost"
          · simp only [if_pos hname] at h
            have hfresh : ∀ p ∈ s.hosts, p.1 ≠ zeroId := by
              intro p hp hz
              have hnl : p.2.Name ≠ "localhost" := by
                intro hc
                apply h2 p hp
                rw [hc, ← hname]
                exact List.mem_cons_self _ _
              obtain ⟨k, _, hk⟩ := (h3 p hp).2.2 hnl
              rw [hk] at hz
              exact Nat.succ_ne_zero k hz
            rw [GoMap.insert_of_fresh hfresh] at h
            have hdisj : ∀ p ∈ s.hosts ++
                [((zeroId : ObjectId), (⟨zeroId, name, tid, tid⟩ : Host))],
                p.2.Name ∉ rest.map Prod.fst := by
              intro p hp
              rcases List.mem_append.mp hp with hold | hnew
              · intro hmem2
                exact h2 p hold (List.mem_cons_of_mem _ hmem2)
              · simp only [List.mem_singleton] at hnew
                rw [hnew]
                exact hname_rest
            have hinv : ∀ p ∈ s.hosts ++
                [((zeroId : ObjectId), (⟨zeroId, name, tid, tid⟩ : Host))],
                p.2.Id = p.1 ∧
                (p.2.Name = "localhost" → p.1 = zeroId) ∧
                (p.2.Name ≠ "localhost" → ∃ k, k < s.gen ∧ p.1 = genId k) := by
              intro p hp
              rcases List.mem_append.mp hp with hold | hnew
              · exact h3 p hold
              · simp only [List.mem_singleton] at hnew
                rw [hnew]
                exact ⟨rfl, fun _ => rfl, fun hc => absurd hname hc⟩
            have hkeys : ((s.hosts ++
                [((zeroId : ObjectId), (⟨zeroId, name, tid, tid⟩ : Host))]).map
                  Prod.fst).Nodup := by
              simp only [List.map_append, List.map_cons, List.map_nil]
              rw [List.nodup_append]
              refine ⟨h4, List.nodup_singleton _, ?_⟩
              intro x hx hx2
              simp only [List.mem_singleton] at hx2
              obtain ⟨p, hp, hpa⟩ := List.mem_map.mp hx
              exact hfresh p hp (by rw [hpa, hx2])
            have hx := ih _ _ h hrest_nodup hdisj hinv hkeys
            obtain ⟨hi1, hi2, hi3, hi4⟩ := hx
            refine ⟨hi1, hi2, ?_, ?_⟩
            · rw [hi3]
              simp only [List.length_append, List.length_cons, List.length_nil]
              omega
            · exact hi4
          · simp only [if_neg hname] at h
            have hfresh : ∀ p ∈ s.hosts, p.1 ≠ genId s.gen := by
              intro p hp hz
              by_cases hn2 : p.2.Name = "localhost"
              · have hzz := (h3 p hp).2.1 hn2
                rw [hzz] at hz
                exact Nat.succ_ne_zero s.gen hz.symm
              · obtain ⟨k, hk1, hk2⟩ := (h3 p hp).2.2 hn2
                rw [hk2] at hz
                have : k = s.gen := Nat.succ_injective hz
                omega
            rw [GoMap.insert_of_fresh hfresh] at h
            have hdisj : ∀ p ∈ s.hosts ++
                [(genId s.gen, (⟨genId s.gen, name, tid, tid⟩ : Host))],
                p.2.Name ∉ rest.map Prod.fst := by
              intro p hp
              rcases List.mem_append.mp hp with hold | hnew
              · intro hmem2
                exact h2 p hold (List.mem_cons_of_mem _ hmem2)
              · simp only [List.mem_singleton] at hnew
                rw [hnew]
                exact hname_rest
            have hinv : ∀ p ∈ s.hosts ++
                [(genId s.gen, (⟨genId s.gen, name, tid, tid⟩ : Host))],
                p.2.Id = p.1 ∧
                (p.2.Name = "localhost" → p.1 = zeroId) ∧
                (p.2.Name ≠ "localhost" → ∃ k, k < s.gen + 1 ∧ p.1 = genId k) := by
              intro p hp
              rcases List.mem_append.mp hp with hold | hnew
              · obtain ⟨ha, hb, hc⟩ := h3 p hold
                refine ⟨ha, hb, fun hnl => ?_⟩
                obtain ⟨k, hk1, hk2⟩ := hc hnl
                exact ⟨k, Nat.lt_succ_of_lt hk1, hk2⟩
              · simp only [List.mem_singleton] at hnew
                rw [hnew]
                exact ⟨rfl, fun hc => absurd hc hname,
                  fun _ => ⟨s.gen, Nat.lt_succ_self _, rfl⟩⟩
            have hkeys : ((s.hosts ++
                [(genId s.gen, (⟨genId s.gen, name, tid, tid⟩ : Host))]).map
                  Prod.fst).Nodup := by
              simp only [List.map_append, List.map_cons, List.map_nil]
              rw [List.nodup_append]
              refine ⟨h4, List.nodup_singleton _, ?_⟩
              intro x hx hx2
              simp only [List.mem_singleton] at hx2
              obtain ⟨p, hp, hpa⟩ := List.mem_map.mp hx
              exact hfresh p hp (by rw [hpa, hx2])
            have hx := ih _ _ h hrest_nodup hdisj hinv hkeys
            obtain ⟨hi1, hi2, hi3, hi4⟩ := hx
            refine ⟨hi1, hi2, ?_, ?_⟩
            · rw [hi3]
              simp only [List.length_append, List.length_cons, List.length_nil]
              omega
            · exact Nat.le_of_succ_le hi4
        · simp at h
      · simp at h

/-- C1: for every host record loaded by NewConfigurationStore, a record named
localhost is assigned the reserved all-zero identifier; every other record is
assigned a freshly generated identifier, which is never the zero identifier;
and two distinct loaded hosts never share an identifier (the identifier list
has no duplicate and no record is lost, one stored host per record). The
hypothesis that the configuration host names are pairwise distinct reflects
that config.GetAllHosts yields a Go map keyed by host name. -/
theorem localhost_reserved_and_ids_unique
    (t a : List String) (cfg : Configuration) (g : Nat) (s : ConfigurationStore)
    (hnodup : (cfg.hosts.map Prod.fst).Nodup)
    (hload : NewConfigurationStore t a cfg g = .ok (.ok s)) :
    (∀ p ∈ s.hosts,
      (p.2.Name = "localhost" → p.2.Id = zeroId) ∧
      (p.2.Name ≠ "localhost" → p.2.Id ≠ zeroId ∧ ∃ k, p.2.Id = genId k)) ∧
    (s.hosts.map fun p => p.2.Id).Nodup ∧
    s.hosts.length = cfg.hosts.length := by
  simp only [NewConfigurationStore] at hload
  split at hload
  · simp at hload
  · simp at hload
  · next s1 heq =>
    obtain ⟨hmon_hosts, _⟩ := loadMonitors_frame a cfg.monitors s1 s hload
    have hspec := loadHosts_ok_spec t cfg.hosts _ _ heq hnodup (by simp) (by simp)
      (by simp)
    obtain ⟨hinv, hkeys, hlen, _⟩ := hspec
    rw [hmon_hosts]
    refine ⟨?_, ?_, ?_⟩
    · intro p hp
      obtain ⟨hid, hl, hnl⟩ := hinv p hp
      refine ⟨fun hn => by rw [hid]; exact hl hn, fun hn => ?_⟩
      obtain ⟨k, _, hk⟩ := hnl hn
      rw [hid, hk]
      exact ⟨Nat.succ_ne_zero k, ⟨k, rfl⟩⟩
    · rw [map_id_eq_key s1.hosts fun p hp => (hinv p hp).1]
      exact hkeys
    · rw [hlen]
      simp

/-- A concrete two-host configuration exercising both identifier branches. -/
def c1cfg : Configuration :=
  { hosts := [("localhost", { decoded := some "mock", transportDecodeOk := true }),
              ("web1", { decoded := some "mock", transportDecodeOk := true })],
    monitors := [] }

/-- The store NewConfigurationStore builds from c1cfg with registry [mock]. -/
def c1store : ConfigurationStore :=
  { hosts := [(zeroId, { Id := zeroId, Name := "localhost",
                         TransportId := "mock", Transport := "mock" }),
              (genId 0, { Id := genId 0, Name := "web1",
                          TransportId := "mock", Transport := "mock" })],
    monitors := [], events := [], gen := 1 }

/-- Witness for C1 at the concrete configuration c1cfg. -/
theorem localhost_reserved_and_ids_unique_witness :
    (∀ p ∈ c1store.hosts,
      (p.2.Name = "localhost" → p.2.Id = zeroId) ∧
      (p.2.Name ≠ "localhost" → p.2.Id ≠ zeroId ∧ ∃ k, p.2.Id = genId k)) ∧
    (c1store.hosts.map fun p => p.2.Id).Nodup ∧
    c1store.hosts.length = c1cfg.hosts.length :=
  localhost_reserved_and_ids_unique ["mock"] [] c1cfg 0 c1store (by decide) (by decide)

/-- C2: a configuration snapshot containing a host record whose transport
selector is not registered never yields a store: no store value is returned,
so no hosts or monitors are queryable afterward; and when every host record
decodes cleanly (the only situation in which another load error can not fire
first), the returned error is the unknown transport error naming an
unregistered selector. -/
theorem unknown_transport_aborts_load
    (t a : List String) (cfg : Configuration) (g : Nat)
    (hbad : ∃ p ∈ cfg.hosts, ∃ tid, p.2.decoded = some tid ∧ tid ∉ t) :
    (∀ s : ConfigurationStore, NewConfigurationStore t a cfg g ≠ .ok (.ok s)) ∧
    ((∀ p ∈ cfg.hosts, (p.2.decoded).isSome ∧ p.2.transportDecodeOk = true) →
      ∃ tid, tid ∉ t ∧
        NewConfigurationStore t a cfg g = .ok (.error (.fmtUnknownTransport tid))) := by
  constructor
  · intro s hok
    simp only [NewConfigurationStore] at hok
    split at hok
    · simp at hok
    · simp at hok
    · next s1 heq =>
      rcases hbad with ⟨p, hp, tid, hdec, hnt⟩
      exact hnt (loadHosts_registered t cfg.hosts _ _ heq p hp tid hdec)
  · intro hok
    obtain ⟨tid, hnt, hrun⟩ := loadHosts_unknown_transport t cfg.hosts
      { hosts := [], monitors := [], events := [], gen := g } hok hbad
    refine ⟨tid, hnt, ?_⟩
    simp only [NewConfigurationStore]
    rw [hrun]

/-- A configuration whose single host names an unregistered transport. -/
def c2cfg : Configuration :=
  { hosts := [("h1", { decoded := some "ghost", transportDecodeOk := true })],
    monitors := [] }

/-- Witness for C2 at the concrete configuration c2cfg. -/
theorem unknown_transport_aborts_load_witness :
    ∃ tid, tid ∉ ["known"] ∧
      NewConfigurationStore ["known"] [] c2cfg 0 =
        .ok (.error (.fmtUnknownTransport tid)) :=
  (unknown_transport_aborts_load ["known"] [] c2cfg 0
    ⟨("h1", { decoded := some "ghost", transportDecodeOk := true }),
      by decide, "ghost", rfl, by decide⟩).2 (by decide)

/-- A concrete host used by the C3, C4, C5 and C9 instances. -/
def c3host : Host :=
  { Id := genId 0, Name := "web", TransportId := "mock", Transport := "mock" }

/-- A concrete store holding c3host under its id. -/
def c3store : ConfigurationStore :=
  { hosts := [(genId 0, c3host)], monitors := [], events := [], gen := 1 }

/-- C3 counterexample: on the malformed id xyz (not 24 hexadecimal
characters), GetHost panics, because bson.ObjectIdHex panics on a malformed
string before the map lookup can run; it does not return ErrorInvalidId.
This refutes the claim that GetHost always returns either a host or
InvalidIdError and never fails in any other way. -/
theorem getHost_malformed_id_panics :
    GetHost c3store "xyz" = .panics ∧
    GetHost c3store "xyz" ≠ .ok (.error GoErr.errorInvalidId) := by decide

/-- C3 amended: for a well-formed id (24 hexadecimal characters), GetHost
returns the host stored under that id when present and ErrorInvalidId when
absent; for a malformed id it panics rather than returning an error. -/
theorem getHost_wellformed_spec (s : ConfigurationStore) (id : String) :
    (ObjectIdHex id = none → GetHost s id = .panics) ∧
    (∀ oid, ObjectIdHex id = some oid →
      (GoMap.find oid s.hosts = none →
        GetHost s id = .ok (.error GoErr.errorInvalidId)) ∧
      (∀ h, GoMap.find oid s.hosts = some h → GetHost s id = .ok (.ok h))) := by
  constructor
  · intro hn
    simp [GetHost, hn]
  · intro oid ho
    constructor
    · intro hf
      simp [GetHost, ho, hf]
    · intro h hf
      simp [GetHost, ho, hf]

/-- Witness for the amended C3 statement: the found, not-found and panic
branches at concrete inputs. -/
theorem getHost_wellformed_spec_witness :
    GetHost c3store "000000000000000000000001" = .ok (.ok c3host) ∧
    GetHost c3store "000000000000000000000005" = .ok (.error GoErr.errorInvalidId) ∧
    GetHost c3store "zz" = .panics :=
  ⟨((getHost_wellformed_spec c3store "000000000000000000000001").2 (genId 0)
      (by decide)).2 c3host (by decide),
   ((getHost_wellformed_spec c3store "000000000000000000000005").2 5
      (by decide)).1 (by decide),
   (getHost_wellformed_spec c3store "zz").1 (by decide)⟩

/-- C4: AddHost overwrites whatever identifier the caller put in the host
with a freshly generated one that is distinct from every host identifier
already stored, commits the host under that identifier leaving all other
entries unchanged, and appends exactly one hostadd event carrying the
committed host to the event log (the broadcast happens on the store that
already contains the host: Broadcast is applied after the map assignment in
AddHost, matching the source order). The hypothesis says every identifier in
the store came from the zero id or from an earlier state of the generator,
which holds for every store built by this file. -/
theorem addHost_fresh_id_single_event
    (s : ConfigurationStore) (h : Host)
    (hids : ∀ p ∈ s.hosts, p.1 = zeroId ∨ ∃ k, k < s.gen ∧ p.1 = genId k) :
    (AddHost s h).2 = { h with Id := genId s.gen } ∧
    GoMap.find (genId s.gen) s.hosts = none ∧
    GoMap.find (genId s.gen) (AddHost s h).1.hosts =
      some { h with Id := genId s.gen } ∧
    (∀ k, k ≠ genId s.gen →
      GoMap.find k (AddHost s h).1.hosts = GoMap.find k s.hosts) ∧
    (AddHost s h).1.events =
      s.events ++ [Event.hostadd { h with Id := genId s.gen }] := by
  have hfind : GoMap.find (genId s.gen) s.hosts = none := by
    rw [GoMap.find_eq_none]
    intro p hp hz
    rcases hids p hp with h0 | ⟨k, hk1, hk2⟩
    · rw [h0] at hz
      exact Nat.succ_ne_zero s.gen hz.symm
    · rw [hk2] at hz
      have : k = s.gen := Nat.succ_injective hz
      omega
  refine ⟨rfl, hfind, ?_, ?_, rfl⟩
  · exact GoMap.find_insert_self
  · intro k hk
    exact GoMap.find_insert_ne hk

/-- A caller-supplied host with a pre-populated identifier that AddHost must
discard. -/
def c4host : Host :=
  { Id := 999, Name := "caller", TransportId := "mock", Transport := "mock" }

/-- Witness for C4 at the concrete store c3store and host c4host. -/
theorem addHost_fresh_id_single_event_witness :
    (AddHost c3store c4host).2 = { c4host with Id := genId c3store.gen } ∧
    GoMap.find (genId c3store.gen) c3store.hosts = none ∧
    GoMap.find (genId c3store.gen) (AddHost c3store c4host).1.hosts =
      some { c4host with Id := genId c3store.gen } ∧
    (∀ k, k ≠ genId c3store.gen →
      GoMap.find k (AddHost c3store c4host).1.hosts = GoMap.find k c3store.hosts) ∧
    (AddHost c3store c4host).1.events =
      c3store.events ++ [Event.hostadd { c4host with Id := genId c3store.gen }] :=
  addHost_fresh_id_single_event c3store c4host
    (by
      intro p hp
      simp only [c3store, List.mem_singleton] at hp
      rw [hp]
      exact Or.inr ⟨0, by decide, rfl⟩)

/-- C5: on a well-formed id whose key is absent from the hosts collection,
DeleteHost returns the ErrHostNotFound sentinel with the store unchanged
(same hosts, same event log, so no broadcast happened); on a present key it
removes exactly that entry, leaves every other key unchanged, and appends
one hostdelete event carrying the removed host. The id is quantified over
well-formed identifiers because a malformed string panics in
bson.ObjectIdHex before DeleteHost can consult the collection (see the C3
counterexample). -/
theorem deleteHost_spec
    (s : ConfigurationStore) (id : String) (oid : ObjectId)
    (hhex : ObjectIdHex id = some oid) :
    (GoMap.find oid s.hosts = none →
      DeleteHost s id = .ok (s, some GoErr.errHostNotFound)) ∧
    (∀ h, GoMap.find oid s.hosts = some h →
      DeleteHost s id =
        .ok ({ s with hosts := GoMap.erase oid s.hosts,
                      events := s.events ++ [Event.hostdelete h] }, none) ∧
      GoMap.find oid (GoMap.erase oid s.hosts) = none ∧
      (∀ k, k ≠ oid →
        GoMap.find k (GoMap.erase oid s.hosts) = GoMap.find k s.hosts)) := by
  constructor
  · intro hf
    simp [DeleteHost, hhex, hf]
  · intro h hf
    refine ⟨?_, GoMap.find_erase_self, fun k hk => GoMap.find_erase_ne hk⟩
    simp only [DeleteHost, hhex, hf]
    rfl

/-- Witness for C5: the not-found and the removal branches at concrete
inputs over c3store. -/
theorem deleteHost_spec_witness :
    DeleteHost c3store "000000000000000000000005" =
      .ok (c3store, some GoErr.errHostNotFound) ∧
    DeleteHost c3store "000000000000000000000001" =
      .ok ({ c3store with hosts := GoMap.erase (genId 0) c3store.hosts,
                          events := c3store.events ++ [Event.hostdelete c3host] },
           none) :=
  ⟨(deleteHost_spec c3store "000000000000000000000005" 5 (by decide)).1 (by decide),
   ((deleteHost_spec c3store "000000000000000000000001" (genId 0)
      (by decide)).2 c3host (by decide)).1⟩

/-- A configuration whose single monitor record specifies a 30 second
interval, referencing the localhost host and a registered agent. -/
def c6cfg : Configuration :=
  { hosts := [("localhost", { decoded := some "mock", transportDecodeOk := true })],
    monitors := [{ proxy := some ("localhost", "agentx"),
                   interval := some (30 * second),
                   agentDecodeOk := true }] }

/-- The monitor NewConfigurationStore builds from the c6cfg record. -/
def c6mon : Monitor :=
  { Id := genId 0, HostId := zeroId, Interval := 10 * second,
    Job := { Agent := "agentx" } }

/-- The store NewConfigurationStore builds from c6cfg. -/
def c6store : ConfigurationStore :=
  { hosts := [(zeroId, { Id := zeroId, Name := "localhost",
                         TransportId := "mock", Transport := "mock" })],
    monitors := [(genId 0, c6mon)], events := [], gen := 1 }

/-- C6 counterexample: the single monitor record of c6cfg carries an interval
field of 30 seconds, yet the loaded monitor has Interval equal to 10 seconds,
not 30: the monitor loop decodes the raw record only into the proxy and into
the agent, never into the pre-initialized Monitor structure, so a specified
interval does not override the default. This refutes the half of the claim
saying the loaded Interval equals the value specified in the record. -/
theorem monitor_interval_ignored :
    c6cfg.monitors.map (fun r => r.interval) = [some (30 * second)] ∧
    NewConfigurationStore ["mock"] ["agentx"] c6cfg 0 = .ok (.ok c6store) ∧
    c6store.monitors.map (fun p => p.2.Interval) = [10 * second] ∧
    (10 * second : Int) ≠ 30 * second := by decide

/-- C6 amended: every monitor loaded by NewConfigurationStore has Interval
equal to exactly 10 seconds, whether or not the record carries an interval
field: the default set when the Monitor is initialized is never overridden,
because the record is never decoded over the Monitor structure. -/
theorem monitor_interval_always_default
    (t a : List String) (cfg : Configuration) (g : Nat) (s : ConfigurationStore)
    (hload : NewConfigurationStore t a cfg g = .ok (.ok s)) :
    ∀ p ∈ s.monitors, p.2.Interval = 10 * second := by
  simp only [NewConfigurationStore] at hload
  split at hload
  · simp at hload
  · simp at hload
  · next s1 heq =>
    have hmon1 : s1.monitors = [] := (loadHosts_frame t cfg.hosts _ _ heq).1
    intro p hp
    rcases loadMonitors_monitor_mem a cfg.monitors s1 s hload p hp with hold | hi
    · rw [hmon1] at hold
      simp at hold
    · exact hi.2

/-- Witness for the amended C6 statement at the concrete configuration. -/
theorem monitor_interval_always_default_witness :
    c6mon.Interval = 10 * second :=
  monitor_interval_always_default ["mock"] ["agentx"] c6cfg 0 c6store (by decide)
    (genId 0, c6mon) (by decide)

/-- A configuration whose monitor references the host name ghost, which no
host record defines. -/
def c7cfg : Configuration :=
  { hosts := [("localhost", { decoded := some "mock", transportDecodeOk := true })],
    monitors := [{ proxy := some ("ghost", "agentx"), interval := none,
                   agentDecodeOk := true }] }

/-- C7: GetHostByName on a name matching no host returns the ad hoc error
value built by fmt.Errorf, which is a different error value from the
ErrHostNotFound sentinel the package declares for exactly this purpose (its
doc comment reads: ErrHostNotFound will be returned iof the host cannot be
found), and the load of a configuration whose monitor references an unknown
host name propagates that same ad hoc error, not the sentinel. -/
theorem getHostByName_error_not_sentinel :
    GetHostByName c3store "ghost" = .error (GoErr.fmtHostNotFound "ghost") ∧
    GoErr.fmtHostNotFound "ghost" ≠ GoErr.errHostNotFound ∧
    NewConfigurationStore ["mock"] ["agentx"] c7cfg 0 =
      .ok (.error (GoErr.fmtHostNotFound "ghost")) := by decide

/-- C8: UpdateMonitor never returns an error, stores the monitor under its
own Id whether or not that key was present (an upsert: the witness exercises
the insert-when-absent case), leaves every other key and the hosts
collection unchanged, and appends exactly one monchange event. -/
theorem updateMonitor_upsert (s : ConfigurationStore) (mon : Monitor) :
    (UpdateMonitor s mon).2 = none ∧
    GoMap.find mon.Id (UpdateMonitor s mon).1.monitors = some mon ∧
    (∀ k, k ≠ mon.Id →
      GoMap.find k (UpdateMonitor s mon).1.monitors = GoMap.find k s.monitors) ∧
    (UpdateMonitor s mon).1.events = s.events ++ [Event.monchange mon] ∧
    (UpdateMonitor s mon).1.hosts = s.hosts :=
  ⟨rfl, GoMap.find_insert_self, fun _ hk => GoMap.find_insert_ne hk, rfl, rfl⟩

/-- Witness for C8 at a store in which the monitor id is absent, so the
unconditional overwrite acts as an insert. -/
theorem updateMonitor_upsert_witness :
    (UpdateMonitor c3store c6mon).2 = none ∧
    GoMap.find c6mon.Id (UpdateMonitor c3store c6mon).1.monitors = some c6mon ∧
    GoMap.find 42 (UpdateMonitor c3store c6mon).1.monitors =
      GoMap.find 42 c3store.monitors ∧
    (UpdateMonitor c3store c6mon).1.events =
      c3store.events ++ [Event.monchange c6mon] :=
  ⟨(updateMonitor_upsert c3store c6mon).1,
   (updateMonitor_upsert c3store c6mon).2.1,
   (updateMonitor_upsert c3store c6mon).2.2.1 42 (by decide),
   (updateMonitor_upsert c3store c6mon).2.2.2.1⟩

/-- C9: when GetHostByName returns a host, that host has the requested name
and is a value copy of a stored entry: the stored entry keeps holding the
original value, so any caller mutation producing a properly different value
cannot be what the store holds. In Go this is because the range loop
variable is a copy of the map entry and the method returns a pointer to that
copy; the embedding captures it by the value-typed return, and the store
itself is not written by this read operation (it takes the store and returns
only a host value). -/
theorem getHostByName_returns_copy
    (s : ConfigurationStore) (name : String) (h : Host)
    (hret : GetHostByName s name = .ok h) :
    h.Name = name ∧
    ∃ p, p ∈ s.hosts ∧ p.2 = h ∧
      ∀ f : Host → Host, f h ≠ h → p.2 ≠ f h := by
  simp only [GetHostByName] at hret
  split at hret
  · next p hf =>
    injection hret with hh
    have hpred := List.find?_some hf
    simp only [beq_iff_eq] at hpred
    subst hh
    exact ⟨hpred, p, List.mem_of_find?_eq_some hf, rfl,
      fun f hne hc => hne hc.symm⟩
  · simp at hret

/-- Witness for C9 over c3store with the stored host named web. -/
theorem getHostByName_returns_copy_witness :
    c3host.Name = "web" ∧
    ∃ p, p ∈ c3store.hosts ∧ p.2 = c3host ∧
      ∀ f : Host → Host, f c3host ≠ c3host → p.2 ≠ f c3host :=
  getHostByName_returns_copy c3store "web" c3host (by decide)

/-- Key consistency: every entry of either collection is stored under a key
equal to the Id field of the stored entity. -/
def KeyConsistent (s : ConfigurationStore) : Prop :=
  (∀ p ∈ s.hosts, p.2.Id = p.1) ∧ (∀ p ∈ s.monitors, p.2.Id = p.1)

/-- States reachable from a store through any sequence of the mutating
operations AddHost, DeleteHost, AddMonitor, UpdateMonitor, DeleteMonitor
(the delete steps cover both the success and the not-found outcome). -/
inductive Reach : ConfigurationStore → ConfigurationStore → Prop where
  | refl (s : ConfigurationStore) : Reach s s
  | addHost (s s' : ConfigurationStore) (h : Host) :
      Reach s s' → Reach s (AddHost s' h).1
  | deleteHost (s s' s'' : ConfigurationStore) (id : String) (e : Option GoErr) :
      Reach s s' → DeleteHost s' id = .ok (s'', e) → Reach s s''
  | addMonitor (s s' : ConfigurationStore) (m : Monitor) :
      Reach s s' → Reach s (AddMonitor s' m).1
  | updateMonitor (s s' : ConfigurationStore) (m : Monitor) :
      Reach s s' → Reach s (UpdateMonitor s' m).1
  | deleteMonitor (s s' s'' : ConfigurationStore) (id : String) (e : Option GoErr) :
      Reach s s' → DeleteMonitor s' id = .ok (s'', e) → Reach s s''

theorem keyConsistent_addHost (s : ConfigurationStore) (h : Host)
    (hkc : KeyConsistent s) : KeyConsistent (AddHost s h).1 := by
  obtain ⟨h1, h2⟩ := hkc
  constructor
  · intro p hp
    rcases GoMap.mem_insert hp with he | hold
    · rw [he]
    · exact h1 p hold
  · exact h2

theorem keyConsistent_deleteHost (s s'' : ConfigurationStore) (id : String)
    (e : Option GoErr) (hdel : DeleteHost s id = .ok (s'', e))
    (hkc : KeyConsistent s) : KeyConsistent s'' := by
  simp only [DeleteHost] at hdel
  split at hdel
  · simp at hdel
  · split at hdel
    · injection hdel with h1
      injection h1 with h2 h3
      exact h2 ▸ hkc
    · injection hdel with h1
      injection h1 with h2 h3
      subst h2
      obtain ⟨h1', h2'⟩ := hkc
      constructor
      · intro p hp
        exact h1' p (GoMap.mem_erase hp)
      · exact h2'

theorem keyConsistent_addMonitor (s : ConfigurationStore) (m : Monitor)
    (hkc : KeyConsistent s) : KeyConsistent (AddMonitor s m).1 := by
  obtain ⟨h1, h2⟩ := hkc
  refine ⟨h1, ?_⟩
  intro p hp
  rcases GoMap.mem_insert hp with he | hold
  · rw [he]
  · exact h2 p hold

theorem keyConsistent_updateMonitor (s : ConfigurationStore) (m : Monitor)
    (hkc : KeyConsistent s) : KeyConsistent (UpdateMonitor s m).1 := by
  obtain ⟨h1, h2⟩ := hkc
  refine ⟨h1, ?_⟩
  intro p hp
  rcases GoMap.mem_insert hp with he | hold
  · rw [he]
  · exact h2 p hold

theorem keyConsistent_deleteMonitor (s s'' : ConfigurationStore) (id : String)
    (e : Option GoErr) (hdel : DeleteMonitor s id = .ok (s'', e))
    (hkc : KeyConsistent s) : KeyConsistent s'' := by
  simp only [DeleteMonitor] at hdel
  split at hdel
  · simp at hdel
  · split at hdel
    · injection hdel with h1
      injection h1 with h2 h3
      exact h2 ▸ hkc
    · injection hdel with h1
      injection h1 with h2 h3
      subst h2
      obtain ⟨h1', h2'⟩ := hkc
      refine ⟨h1', ?_⟩
      intro p hp
      exact h2' p (GoMap.mem_erase hp)

theorem keyConsistent_load
    (t a : List String) (cfg : Configuration) (g : Nat) (s : ConfigurationStore)
    (hload : NewConfigurationStore t a cfg g = .ok (.ok s)) :
    KeyConsistent s := by
  simp only [NewConfigurationStore] at hload
  split at hload
  · simp at hload
  · simp at hload
  · next s1 heq =>
    have hh := loadHosts_host_mem t cfg.hosts _ _ heq
    have hm1 : s1.monitors = [] := (loadHosts_frame t cfg.hosts _ _ heq).1
    have hhs : s.hosts = s1.hosts := (loadMonitors_frame a cfg.monitors _ _ hload).1
    have hmm := loadMonitors_monitor_mem a cfg.monitors _ _ hload
    constructor
    · intro p hp
      rw [hhs] at hp
      rcases hh p hp with hold | hid
      · simp at hold
      · exact hid
    · intro p hp
      rcases hmm p hp with hold | hid
      · rw [hm1] at hold
        simp at hold
      · exact hid.1

theorem keyConsistent_reach (s0 s : ConfigurationStore) (hreach : Reach s0 s)
    (hkc : KeyConsistent s0) : KeyConsistent s := by
  induction hreach with
  | refl => exact hkc
  | addHost s2 h hr ih => exact keyConsistent_addHost _ _ ih
  | deleteHost s2 s3 id e hr hdel ih =>
    exact keyConsistent_deleteHost _ _ _ _ hdel ih
  | addMonitor s2 m hr ih => exact keyConsistent_addMonitor _ _ ih
  | updateMonitor s2 m hr ih => exact keyConsistent_updateMonitor _ _ ih
  | deleteMonitor s2 s3 id e hr hdel ih =>
    exact keyConsistent_deleteMonitor _ _ _ _ hdel ih

/-- C10: in every state reachable from a successfully loaded store through
any sequence of AddHost, DeleteHost, AddMonitor, UpdateMonitor and
DeleteMonitor calls, every hosts entry is keyed by its own Id and every
monitors entry is keyed by its own Id. -/
theorem store_key_consistency
    (t a : List String) (cfg : Configuration) (g : Nat)
    (s0 s : ConfigurationStore)
    (hload : NewConfigurationStore t a cfg g = .ok (.ok s0))
    (hreach : Reach s0 s) :
    KeyConsistent s :=
  keyConsistent_reach s0 s hreach (keyConsistent_load t a cfg g s0 hload)

/-- The empty configuration and the store it loads to. -/
def c10cfg : Configuration := { hosts := [], monitors := [] }

/-- The store loaded from the empty configuration. -/
def c10store : ConfigurationStore :=
  { hosts := [], monitors := [], events := [], gen := 0 }

/-- Witness for C10: a load of the empty configuration followed by one
AddHost step. -/
theorem store_key_consistency_witness :
    KeyConsistent (AddHost c10store c4host).1 :=
  store_key_consistency [] [] c10cfg 0 c10store _ (by decide)
    (Reach.addHost _ _ _ (Reach.refl c10store))

end Agento
